import Mathlib

/-
Verification of the B-tree cell decoder of RuSQLite (src/src/cell.rs).

The embedding models bytes as `Nat` (reduced mod 256 wherever the source
relies on `u8` width), byte buffers as `List Nat`, and fallible Rust code
as an explicit result type in which a Rust panic (out-of-range slice
index, arithmetic underflow/overflow in a debug build, mod by zero) is a
distinct outcome from an `Err` return.
-/

namespace RuSQLite

/-- Outcome of a fallible Rust computation: `ok`/`err` mirror `Result`,
while `panicked` marks a Rust panic (out-of-range slice index, integer
underflow or overflow in a debug build, remainder by zero). -/
inductive RResult (α : Type) where
  | ok : α → RResult α
  | err : String → RResult α
  | panicked : RResult α
deriving DecidableEq

/-- Page types of `btree_page::PageType` as consumed by cell.rs. -/
inductive PageType where
  | LeafTable
  | InteriorTable
  | LeafIndex
  | InteriorIndex
deriving DecidableEq

/-- Modelled from the spec: the database handle fields that cell.rs
consumes (spec section 6: the configured page size and reserved space per
page, plus the open database file, modelled as its byte contents).
`db.rs` is not under src/. -/
structure Database where
  page_size : Nat
  reserved_space : Nat
  file : List Nat
deriving DecidableEq

/-- Modelled from the spec: the page-layer data cell.rs consumes (spec
section 6: the page's declared type and its starting file offset).
`btree_page.rs` is not under src/. -/
structure BtreePage where
  page_type : PageType
  file_starting_position : Nat
deriving DecidableEq

/-- `Cell` locator of cell.rs lines 40-43: a byte range within a page. -/
structure Cell where
  offset : Nat
  size : Nat
deriving DecidableEq

/-- `Payload` of cell.rs lines 46-50: total logical size, the bytes
stored in the cell, and the optional 4-byte overflow page pointer. -/
structure Payload where
  size : Nat
  payload : List Nat
  overflow : Option (List Nat)
deriving DecidableEq

/-- `InvalidFieldError` of cell.rs lines 16-18. -/
structure InvalidFieldError where
  details : String
deriving DecidableEq

/-- `InvalidFieldError::new` of cell.rs lines 21-28. -/
def InvalidFieldError.new (cell_type : String) (field_name : String) : InvalidFieldError :=
  ⟨"Type `" ++ cell_type ++ "` does not have a `" ++ field_name ++ "` field"⟩

/-- Modelled from the spec: recursion core of the varint decoder of spec
section 4.1 (`varint::decode_be`; `varint.rs` is not under src/). `acc` is
the value accumulated so far and `consumed` the number of bytes already
consumed. For the first 8 bytes the high bit is a continuation flag and
the low 7 bits contribute; a 9th byte contributes all 8 bits and always
ends the integer. Running out of bytes mid-integer is a decode failure.
Bytes are reduced mod 256 to reflect their `u8` width, and the decoded
value is reduced mod 2^64 to reflect its `u64` width. -/
def decode_core : List Nat → Nat → Nat → RResult (Nat × Nat)
  | [], _, _ => RResult.err "varint ended before its final byte"
  | b :: rest, acc, consumed =>
    if consumed = 8 then RResult.ok ((acc * 256 + b % 256) % 2 ^ 64, 9)
    else if b % 256 < 128 then RResult.ok ((acc * 128 + b % 256) % 2 ^ 64, consumed + 1)
    else decode_core rest (acc * 128 + b % 128) (consumed + 1)

/-- Modelled from the spec: `varint::decode_be` of spec section 4.1
(`varint.rs` is not under src/). Decodes one big-endian varint from the
front of the slice, returning the decoded value and the number of bytes
consumed; fails when the input slice is empty. -/
def decode_be (bs : List Nat) : RResult (Nat × Nat) :=
  match bs with
  | [] => RResult.err "cannot decode an empty input"
  | b :: rest => decode_core (b :: rest) 0 0

/-- Rust slice indexing `v[a..b]`: panics unless `a <= b <= v.len()`. -/
def sliceRange (bs : List Nat) (a b : Nat) : RResult (List Nat) :=
  if a ≤ b ∧ b ≤ bs.length then RResult.ok ((bs.drop a).take (b - a)) else RResult.panicked

/-- Rust slice indexing `v[a..]`: panics unless `a <= v.len()`. -/
def sliceFrom (bs : List Nat) (a : Nat) : RResult (List Nat) :=
  if a ≤ bs.length then RResult.ok (bs.drop a) else RResult.panicked

/-- Rust expression `v[v.len() - 4..]` on a `usize` length: when
`v.len() < 4` the subtraction underflows and the expression panics
(directly in a debug build, via the out-of-range start in release);
otherwise it yields the last 4 bytes. -/
def sliceLast4 (bs : List Nat) : RResult (List Nat) :=
  if bs.length < 4 then RResult.panicked else RResult.ok (bs.drop (bs.length - 4))

/-- Checked `u64` subtraction: `none` models the underflow panic. -/
def checkedSub (a b : Nat) : Option Nat :=
  if b ≤ a then some (a - b) else none

/-- Checked `u64` multiplication: `none` models the overflow panic. -/
def checkedMul (a b : Nat) : Option Nat :=
  if a * b < 2 ^ 64 then some (a * b) else none

/-- Checked `u64` addition: `none` models the overflow panic. -/
def checkedAdd (a b : Nat) : Option Nat :=
  if a + b < 2 ^ 64 then some (a + b) else none

/-- Checked `u64` remainder: `none` models the panic on remainder by 0. -/
def checkedMod (a b : Nat) : Option Nat :=
  if b = 0 then none else some (a % b)

/-- Translation of `Payload::calculate_spillage` (cell.rs lines 53-69).
The source computes, in order, `u = page_size - reserved_space`,
`m = ((u - 12) * 32 / 255) - 23`, `k = m + ((p - m) % (u - 4))`, `x` by
page type, then matches on the guards `p > x && k <= x` and
`p > x && k > x`. Every `u64` operation is modelled checked, so `none`
models the arithmetic panic of a debug build (the source function returns
a bare `u64` and has no error return). -/
def Payload.calculate_spillage (self : Payload) (db : Database) (page : BtreePage) : Option Nat :=
  let p := self.size
  match checkedSub db.page_size db.reserved_space with
  | none => none
  | some u =>
    match checkedSub u 12 with
    | none => none
    | some u12 =>
      match checkedMul u12 32 with
      | none => none
      | some t32 =>
        match checkedSub (t32 / 255) 23 with
        | none => none
        | some m =>
          match checkedSub p m with
          | none => none
          | some pm =>
            match checkedSub u 4 with
            | none => none
            | some u4 =>
              match checkedMod pm u4 with
              | none => none
              | some rem =>
                match checkedAdd m rem with
                | none => none
                | some k =>
                  match (match page.page_type with
                         | PageType.LeafTable => checkedSub u 35
                         | PageType.LeafIndex =>
                           match checkedMul u12 64 with
                           | none => none
                           | some t64 => checkedSub (t64 / 255) 23
                         | PageType.InteriorIndex =>
                           match checkedMul u12 64 with
                           | none => none
                           | some t64 => checkedSub (t64 / 255) 23
                         | PageType.InteriorTable => some 0) with
                  | none => none
                  | some x =>
                    if p > x ∧ k ≤ x then checkedSub p k
                    else if p > x ∧ k > x then checkedSub p m
                    else some 0

/-- `CellContent` of cell.rs lines 73-93: the tagged union over the four
on-disk cell layouts, each carrying its human-readable type label. -/
inductive CellContent where
  | LeafTable (cell_type : String) (row_id : Nat) (payload : Payload)
  | LeafIndex (cell_type : String) (payload : Payload)
  | InteriorIndex (cell_type : String) (left_child_ptr : Nat) (payload : Payload)
  | InteriorTable (cell_type : String) (left_child_ptr : Nat) (integer_key : Nat)
deriving DecidableEq

/-- `u32::from_be_bytes` on a 4-byte buffer (bytes reduced mod 256). -/
def u32_from_be_bytes (bs : List Nat) : Nat :=
  match bs with
  | [b0, b1, b2, b3] => (b0 % 256) * 16777216 + (b1 % 256) * 65536 + (b2 % 256) * 256 + b3 % 256
  | _ => 0

/-- Translation of `parse_leaf_table_cell` (cell.rs lines 183-208):
payload-size varint, overflow flag when that size exceeds the declared
cell size (taking the last 4 bytes of the buffer), row-id varint, then
the payload bytes (excluding the trailing 4 bytes when overflowing). -/
def parse_leaf_table_cell (cell : Cell) (cell_buf : List Nat) : RResult (Nat × Payload) :=
  match decode_be cell_buf with
  | RResult.err e => RResult.err e
  | RResult.panicked => RResult.panicked
  | RResult.ok (psize, varint_len1) =>
    match (if psize > cell.size then
             match sliceLast4 cell_buf with
             | RResult.err e => RResult.err e
             | RResult.panicked => RResult.panicked
             | RResult.ok ovbytes => RResult.ok (some ovbytes)
           else RResult.ok none) with
    | RResult.err e => RResult.err e
    | RResult.panicked => RResult.panicked
    | RResult.ok ovf =>
      match sliceFrom cell_buf varint_len1 with
      | RResult.err e => RResult.err e
      | RResult.panicked => RResult.panicked
      | RResult.ok after1 =>
        match decode_be after1 with
        | RResult.err e => RResult.err e
        | RResult.panicked => RResult.panicked
        | RResult.ok (rowid, varint_len2) =>
          match (match ovf with
                 | some _ =>
                   sliceRange cell_buf (varint_len1 + varint_len2) (cell_buf.length - 4)
                 | none => sliceFrom cell_buf (varint_len1 + varint_len2)) with
          | RResult.err e => RResult.err e
          | RResult.panicked => RResult.panicked
          | RResult.ok plbytes => RResult.ok (rowid, ⟨psize, plbytes, ovf⟩)

/-- Translation of `parse_interior_table_cell` (cell.rs lines 210-215):
4-byte big-endian left-child pointer then the integer-key varint; the
first slice `cell_buf[..4]` panics on a buffer shorter than 4 bytes. -/
def parse_interior_table_cell (cell_buf : List Nat) : RResult (Nat × Nat) :=
  match sliceRange cell_buf 0 4 with
  | RResult.err e => RResult.err e
  | RResult.panicked => RResult.panicked
  | RResult.ok hd =>
    match sliceFrom cell_buf 4 with
    | RResult.err e => RResult.err e
    | RResult.panicked => RResult.panicked
    | RResult.ok after4 =>
      match decode_be after4 with
      | RResult.err e => RResult.err e
      | RResult.panicked => RResult.panicked
      | RResult.ok (int_key, _) => RResult.ok (u32_from_be_bytes hd, int_key)

/-- Translation of `parse_leaf_index_cell` (cell.rs lines 217-232):
payload-size varint, overflow flag when that size exceeds the declared
cell size, then the payload bytes. -/
def parse_leaf_index_cell (cell : Cell) (cell_buf : List Nat) : RResult Payload :=
  match decode_be cell_buf with
  | RResult.err e => RResult.err e
  | RResult.panicked => RResult.panicked
  | RResult.ok (psize, varint_len) =>
    match (if psize > cell.size then
             match sliceLast4 cell_buf with
             | RResult.err e => RResult.err e
             | RResult.panicked => RResult.panicked
             | RResult.ok ovbytes => RResult.ok (some ovbytes)
           else RResult.ok none) with
    | RResult.err e => RResult.err e
    | RResult.panicked => RResult.panicked
    | RResult.ok ovf =>
      match (match ovf with
             | some _ => sliceRange cell_buf varint_len (cell_buf.length - 4)
             | none => sliceFrom cell_buf varint_len) with
      | RResult.err e => RResult.err e
      | RResult.panicked => RResult.panicked
      | RResult.ok plbytes => RResult.ok ⟨psize, plbytes, ovf⟩

/-- Translation of `parse_interior_index_cell` (cell.rs lines 234-254):
4-byte big-endian left-child pointer, payload-size varint, overflow flag
when that size exceeds the declared cell size, then the payload bytes. -/
def parse_interior_index_cell (cell : Cell) (cell_buf : List Nat) : RResult (Nat × Payload) :=
  match sliceRange cell_buf 0 4 with
  | RResult.err e => RResult.err e
  | RResult.panicked => RResult.panicked
  | RResult.ok hd =>
    match sliceFrom cell_buf 4 with
    | RResult.err e => RResult.err e
    | RResult.panicked => RResult.panicked
    | RResult.ok after4 =>
      match decode_be after4 with
      | RResult.err e => RResult.err e
      | RResult.panicked => RResult.panicked
      | RResult.ok (psize, varint_len) =>
        match (if psize > cell.size then
                 match sliceLast4 cell_buf with
                 | RResult.err e => RResult.err e
                 | RResult.panicked => RResult.panicked
                 | RResult.ok ovbytes => RResult.ok (some ovbytes)
               else RResult.ok none) with
        | RResult.err e => RResult.err e
        | RResult.panicked => RResult.panicked
        | RResult.ok ovf =>
          match (match ovf with
                 | some _ => sliceRange cell_buf (4 + varint_len) (cell_buf.length - 4)
                 | none => sliceFrom cell_buf (4 + varint_len)) with
          | RResult.err e => RResult.err e
          | RResult.panicked => RResult.panicked
          | RResult.ok plbytes => RResult.ok (u32_from_be_bytes hd, ⟨psize, plbytes, ovf⟩)

/-- The seek + `read_exact` of cell.rs lines 101-108: reads the cell's
declared byte range from the file, failing (as `read_exact` does) when
the file holds too few bytes past the cell's starting position. -/
def read_exact_at (file : List Nat) (pos : Nat) (len : Nat) : RResult (List Nat) :=
  if pos + len ≤ file.length then RResult.ok ((file.drop pos).take len)
  else RResult.err "failed to fill whole buffer"

/-- Translation of `CellContent::get_cell_data` (cell.rs lines 96-148):
reads the cell's bytes, then dispatches on the page's declared type to
one of the four per-type cell decoders. -/
def CellContent.get_cell_data (pg : BtreePage) (db : Database) (cell : Cell) :
    RResult CellContent :=
  match read_exact_at db.file (pg.file_starting_position + cell.offset) cell.size with
  | RResult.err e => RResult.err e
  | RResult.panicked => RResult.panicked
  | RResult.ok cell_buf =>
    match pg.page_type with
    | PageType.LeafTable =>
      match parse_leaf_table_cell cell cell_buf with
      | RResult.err e => RResult.err e
      | RResult.panicked => RResult.panicked
      | RResult.ok (row_id, payload) =>
        RResult.ok (CellContent.LeafTable "B-Tree Leaf Table" row_id payload)
    | PageType.InteriorTable =>
      match parse_interior_table_cell cell_buf with
      | RResult.err e => RResult.err e
      | RResult.panicked => RResult.panicked
      | RResult.ok (left_child_ptr, integer_key) =>
        RResult.ok (CellContent.InteriorTable "B-Tree Interior Table" left_child_ptr integer_key)
    | PageType.LeafIndex =>
      match parse_leaf_index_cell cell cell_buf with
      | RResult.err e => RResult.err e
      | RResult.panicked => RResult.panicked
      | RResult.ok payload => RResult.ok (CellContent.LeafIndex "B-Tree Leaf Index" payload)
    | PageType.InteriorIndex =>
      match parse_interior_index_cell cell cell_buf with
      | RResult.err e => RResult.err e
      | RResult.panicked => RResult.panicked
      | RResult.ok (left_child_ptr, payload) =>
        RResult.ok (CellContent.InteriorIndex "B-Tree Interior Index" left_child_ptr payload)

/-- `CellContent::get_payload` (cell.rs lines 150-159). -/
def CellContent.get_payload : CellContent → Except InvalidFieldError (List Nat)
  | CellContent.LeafTable _ _ payload => Except.ok payload.payload
  | CellContent.LeafIndex _ payload => Except.ok payload.payload
  | CellContent.InteriorIndex _ _ payload => Except.ok payload.payload
  | CellContent.InteriorTable cell_type _ _ =>
    Except.error (InvalidFieldError.new cell_type "payload")

/-- `CellContent::get_left_child_pointer` (cell.rs lines 161-169). -/
def CellContent.get_left_child_pointer : CellContent → Except InvalidFieldError Nat
  | CellContent.InteriorTable _ left_child_ptr _ => Except.ok left_child_ptr
  | CellContent.InteriorIndex _ left_child_ptr _ => Except.ok left_child_ptr
  | CellContent.LeafTable cell_type _ _ =>
    Except.error (InvalidFieldError.new cell_type "left_child_ptr")
  | CellContent.LeafIndex cell_type _ =>
    Except.error (InvalidFieldError.new cell_type "left_child_ptr")

/-- `CellContent::get_row_id` (cell.rs lines 171-180). -/
def CellContent.get_row_id : CellContent → Except InvalidFieldError Nat
  | CellContent.LeafTable _ row_id _ => Except.ok row_id
  | CellContent.InteriorTable cell_type _ _ =>
    Except.error (InvalidFieldError.new cell_type "row_id")
  | CellContent.InteriorIndex cell_type _ _ =>
    Except.error (InvalidFieldError.new cell_type "row_id")
  | CellContent.LeafIndex cell_type _ =>
    Except.error (InvalidFieldError.new cell_type "row_id")

/-- The page type whose layout a `CellContent` variant represents. -/
def CellContent.variantOf : CellContent → PageType
  | CellContent.LeafTable _ _ _ => PageType.LeafTable
  | CellContent.LeafIndex _ _ => PageType.LeafIndex
  | CellContent.InteriorIndex _ _ _ => PageType.InteriorIndex
  | CellContent.InteriorTable _ _ _ => PageType.InteriorTable

/-- Second definition for the refinement comparison of the overflow
invariant, following the spec's words (section 4.2): the number of bytes
of a payload of total size `p` stored locally in a cell of the given
category on a page of usable size `u`, per the spillage formula
`m = floor((u - 12) * 32 / 255) - 23`, `k = m + (p - m) mod (u - 4)`,
`x = u - 35` for leaf-table cells and `floor((u - 12) * 64 / 255) - 23`
for index cells; `local_bytes` is `p` when `p <= x`, else `k` when
`k <= x`, else `m`. -/
def spec_local_bytes (p u : Nat) (pt : PageType) : Nat :=
  let m := (u - 12) * 32 / 255 - 23
  let k := m + (p - m) % (u - 4)
  let x := match pt with
           | PageType.LeafTable => u - 35
           | _ => (u - 12) * 64 / 255 - 23
  if p ≤ x then p else if k ≤ x then k else m


/-- The varint decoder consumes at least one byte and never more bytes than its input holds (stated for the recursion core). -/
theorem decode_core_consumed (bs : List Nat) :
    ∀ acc consumed v n, decode_core bs acc consumed = RResult.ok (v, n) →
      consumed < n ∧ n ≤ consumed + bs.length := by
  induction bs with
  | nil => intro acc c v n h; simp [decode_core] at h
  | cons b rest ih =>
    intro acc c v n h
    rw [decode_core] at h
    split_ifs at h with h8 h7
    · simp only [RResult.ok.injEq, Prod.mk.injEq] at h
      simp only [List.length_cons]
      omega
    · simp only [RResult.ok.injEq, Prod.mk.injEq] at h
      simp only [List.length_cons]
      omega
    · have := ih _ _ _ _ h
      simp only [List.length_cons]
      omega

/-- `decode_be` consumes between 1 and `bs.length` bytes when it succeeds. -/
theorem decode_be_consumed (bs : List Nat) (v n : Nat)
    (h : decode_be bs = RResult.ok (v, n)) : 1 ≤ n ∧ n ≤ bs.length := by
  cases bs with
  | nil => simp [decode_be] at h
  | cons b rest =>
    rw [decode_be] at h
    have := decode_core_consumed (b :: rest) 0 0 v n h
    omega

/-- A successful varint decode is unaffected by appending bytes after the input (recursion core). -/
theorem decode_core_append (bs ext : List Nat) :
    ∀ acc consumed r, decode_core bs acc consumed = RResult.ok r →
      decode_core (bs ++ ext) acc consumed = RResult.ok r := by
  induction bs with
  | nil => intro acc c r h; simp [decode_core] at h
  | cons b rest ih =>
    intro acc c r h
    rw [decode_core] at h
    rw [List.cons_append, decode_core]
    split_ifs at h ⊢ with h8 h7
    · exact h
    · exact h
    · exact ih _ _ _ h

/-- A successful `decode_be` result is unchanged by appending extra bytes after the input slice. -/
theorem decode_be_append (bs ext : List Nat) (r : Nat × Nat)
    (h : decode_be bs = RResult.ok r) : decode_be (bs ++ ext) = RResult.ok r := by
  cases bs with
  | nil => simp [decode_be] at h
  | cons b rest =>
    rw [decode_be] at h
    rw [List.cons_append, decode_be]
    exact decode_core_append (b :: rest) ext 0 0 r h


/-- Inversion for `parse_leaf_index_cell`: a successful decode starts with a successful payload-size varint, and either flags overflow (payload size above the declared cell size, last 4 bytes split off) or not (all bytes after the varint are the payload). -/
theorem parse_leaf_index_inv (cell : Cell) (buf : List Nat) (pl : Payload)
    (h : parse_leaf_index_cell cell buf = RResult.ok pl) :
    ∃ v n, decode_be buf = RResult.ok (v, n) ∧ pl.size = v ∧
      ((cell.size < v ∧ 4 ≤ buf.length ∧
          pl.overflow = some (buf.drop (buf.length - 4)) ∧
          pl.payload = (buf.drop n).take (buf.length - 4 - n)) ∨
       (v ≤ cell.size ∧ pl.overflow = none ∧ pl.payload = buf.drop n)) := by
  unfold parse_leaf_index_cell at h
  split at h
  · exact absurd h (by simp)
  · exact absurd h (by simp)
  next v n heq =>
    split at h
    · exact absurd h (by simp)
    · exact absurd h (by simp)
    next ovf hovf =>
      split at h
      · exact absurd h (by simp)
      · exact absurd h (by simp)
      next plbytes hpl =>
        injection h with h2
        subst h2
        refine ⟨v, n, heq, rfl, ?_⟩
        by_cases hc : v > cell.size
        · rw [if_pos hc, sliceLast4] at hovf
          split_ifs at hovf with hlen
          simp at hovf
          subst hovf
          simp only [sliceRange] at hpl
          split_ifs at hpl with hr
          simp at hpl
          subst hpl
          exact Or.inl ⟨hc, by omega, rfl, rfl⟩
        · rw [if_neg hc] at hovf
          simp at hovf
          subst hovf
          simp only [sliceFrom] at hpl
          split_ifs at hpl with hn
          simp at hpl
          subst hpl
          exact Or.inr ⟨by omega, rfl, rfl⟩


/-- A successful `parse_leaf_table_cell` sets `overflow` exactly when the decoded payload size exceeds the declared cell size, in which case it is the last 4 bytes of the buffer. -/
theorem parse_leaf_table_ovf (cell : Cell) (buf : List Nat) (r : Nat) (pl : Payload)
    (h : parse_leaf_table_cell cell buf = RResult.ok (r, pl)) :
    ∃ v n, decode_be buf = RResult.ok (v, n) ∧ pl.size = v ∧
      pl.overflow = (if cell.size < v then some (buf.drop (buf.length - 4)) else none) := by
  unfold parse_leaf_table_cell at h
  split at h
  · exact absurd h (by simp)
  · exact absurd h (by simp)
  next v n heq =>
    split at h
    · exact absurd h (by simp)
    · exact absurd h (by simp)
    next ovf hovf =>
      split at h
      · exact absurd h (by simp)
      · exact absurd h (by simp)
      next after1 hafter =>
        split at h
        · exact absurd h (by simp)
        · exact absurd h (by simp)
        next rid n2 hdec2 =>
          split at h
          · exact absurd h (by simp)
          · exact absurd h (by simp)
          next plbytes hpl =>
            injection h with h2
            simp only [Prod.mk.injEq] at h2
            obtain ⟨hr, hb⟩ := h2
            subst hb
            refine ⟨v, n, heq, rfl, ?_⟩
            by_cases hc : v > cell.size
            · rw [if_pos hc, sliceLast4] at hovf
              split_ifs at hovf with hlen
              simp at hovf
              subst hovf
              rw [if_pos hc]
            · rw [if_neg hc] at hovf
              simp at hovf
              subst hovf
              rw [if_neg hc]

/-- A successful `parse_interior_index_cell` sets `overflow` exactly when the decoded payload size exceeds the declared cell size, in which case it is the last 4 bytes of the buffer. -/
theorem parse_interior_index_ovf (cell : Cell) (buf : List Nat) (lcp : Nat) (pl : Payload)
    (h : parse_interior_index_cell cell buf = RResult.ok (lcp, pl)) :
    ∃ v n, decode_be (buf.drop 4) = RResult.ok (v, n) ∧ pl.size = v ∧
      pl.overflow = (if cell.size < v then some (buf.drop (buf.length - 4)) else none) := by
  unfold parse_interior_index_cell at h
  split at h
  · exact absurd h (by simp)
  · exact absurd h (by simp)
  next hd hhd =>
    split at h
    · exact absurd h (by simp)
    · exact absurd h (by simp)
    next after4 hafter =>
      split at h
      · exact absurd h (by simp)
      · exact absurd h (by simp)
      next v n heq =>
        split at h
        · exact absurd h (by simp)
        · exact absurd h (by simp)
        next ovf hovf =>
          split at h
          · exact absurd h (by simp)
          · exact absurd h (by simp)
          next plbytes hpl =>
            rw [sliceFrom] at hafter
            split_ifs at hafter with h4
            simp at hafter
            subst hafter
            injection h with h2
            simp only [Prod.mk.injEq] at h2
            obtain ⟨hl, hb⟩ := h2
            subst hb
            refine ⟨v, n, heq, rfl, ?_⟩
            by_cases hc : v > cell.size
            · rw [if_pos hc, sliceLast4] at hovf
              split_ifs at hovf with hlen
              simp at hovf
              subst hovf
              rw [if_pos hc]
            · rw [if_neg hc] at hovf
              simp at hovf
              subst hovf
              rw [if_neg hc]

/-- Forward evaluation of `parse_leaf_table_cell` when both varints decode and the payload size does not exceed the declared cell size: no overflow is flagged and the payload is everything after the two varints. -/
theorem parse_leaf_table_fwd (cell : Cell) (buf : List Nat) (p n r n2 : Nat)
    (h1 : decode_be buf = RResult.ok (p, n))
    (h2 : decode_be (buf.drop n) = RResult.ok (r, n2))
    (hle : p ≤ cell.size) :
    parse_leaf_table_cell cell buf = RResult.ok (r, ⟨p, buf.drop (n + n2), none⟩) := by
  have hn := decode_be_consumed buf p n h1
  have hn2 := decode_be_consumed (buf.drop n) r n2 h2
  rw [List.length_drop] at hn2
  have hsf1 : sliceFrom buf n = RResult.ok (buf.drop n) := by
    rw [sliceFrom, if_pos (by omega)]
  have hsf2 : sliceFrom buf (n + n2) = RResult.ok (buf.drop (n + n2)) := by
    rw [sliceFrom, if_pos (by omega)]
  have hnot : ¬ p > cell.size := by omega
  simp only [parse_leaf_table_cell, h1, if_neg hnot, hsf1, h2, hsf2]

/-- Forward evaluation of `parse_leaf_index_cell` when the payload-size varint decodes and its value does not exceed the declared cell size. -/
theorem parse_leaf_index_fwd (cell : Cell) (buf : List Nat) (p n : Nat)
    (h1 : decode_be buf = RResult.ok (p, n))
    (hle : p ≤ cell.size) :
    parse_leaf_index_cell cell buf = RResult.ok ⟨p, buf.drop n, none⟩ := by
  have hn := decode_be_consumed buf p n h1
  have hsf : sliceFrom buf n = RResult.ok (buf.drop n) := by
    rw [sliceFrom, if_pos (by omega)]
  have hnot : ¬ p > cell.size := by omega
  simp only [parse_leaf_index_cell, h1, if_neg hnot, hsf]


/-- Forward evaluation of `parse_interior_table_cell` on a buffer made of a 4-byte header, a decodable varint, and arbitrary trailing bytes. -/
theorem parse_interior_table_fwd (hdr w ext : List Nat) (v n : Nat)
    (hlen : hdr.length = 4) (hdec : decode_be w = RResult.ok (v, n)) :
    parse_interior_table_cell (hdr ++ (w ++ ext)) =
      RResult.ok (u32_from_be_bytes hdr, v) := by
  have hbl : (hdr ++ (w ++ ext)).length = 4 + (w ++ ext).length := by
    simp [hlen]
  have hsr : sliceRange (hdr ++ (w ++ ext)) 0 4 = RResult.ok hdr := by
    rw [sliceRange, if_pos (by omega)]
    simp only [List.drop_zero, Nat.sub_zero]
    rw [← hlen, List.take_left]
  have hsf : sliceFrom (hdr ++ (w ++ ext)) 4 = RResult.ok (w ++ ext) := by
    rw [sliceFrom, if_pos (by omega)]
    rw [← hlen, List.drop_left]
  have hd2 : decode_be (w ++ ext) = RResult.ok (v, n) := decode_be_append w ext _ hdec
  simp only [parse_interior_table_cell, hsr, hsf, hd2]

/-- If `(u - 12) * 32 / 255` reaches 23 then `u` is at least 196. -/
theorem nat_196_le (u : Nat) (hm : 23 ≤ (u - 12) * 32 / 255) : 196 ≤ u := by
  have := (Nat.le_div_iff_mul_le (by norm_num : 0 < 255)).mp hm
  omega


/-- Under the definedness side conditions of its `u64` arithmetic, `calculate_spillage` returns the spilled byte count of the section 4.2 formula. -/
theorem calculate_spillage_eq (pl : Payload) (db : Database) (pg : BtreePage) (u : Nat)
    (hu : db.reserved_space ≤ db.page_size)
    (hueq : u = db.page_size - db.reserved_space)
    (hm : 23 ≤ (u - 12) * 32 / 255)
    (hp : (u - 12) * 32 / 255 - 23 ≤ pl.size)
    (h32 : (u - 12) * 32 < 2 ^ 64)
    (h64 : (u - 12) * 64 < 2 ^ 64)
    (hk : (u - 12) * 32 / 255 - 23 +
          (pl.size - ((u - 12) * 32 / 255 - 23)) % (u - 4) < 2 ^ 64) :
    Payload.calculate_spillage pl db pg =
      some (if pl.size ≤ (match pg.page_type with
                          | PageType.LeafTable => u - 35
                          | PageType.InteriorTable => 0
                          | _ => (u - 12) * 64 / 255 - 23) then 0
            else if ((u - 12) * 32 / 255 - 23) +
                    (pl.size - ((u - 12) * 32 / 255 - 23)) % (u - 4) ≤
                    (match pg.page_type with
                     | PageType.LeafTable => u - 35
                     | PageType.InteriorTable => 0
                     | _ => (u - 12) * 64 / 255 - 23) then
              pl.size - (((u - 12) * 32 / 255 - 23) +
                         (pl.size - ((u - 12) * 32 / 255 - 23)) % (u - 4))
            else pl.size - ((u - 12) * 32 / 255 - 23)) := by
  have hu196 : 196 ≤ u := nat_196_le u hm
  have h1 : checkedSub db.page_size db.reserved_space = some u := by
    rw [checkedSub, if_pos hu, hueq]
  have h2 : checkedSub u 12 = some (u - 12) := by rw [checkedSub, if_pos (by omega)]
  have h3 : checkedMul (u - 12) 32 = some ((u - 12) * 32) := by rw [checkedMul, if_pos h32]
  have h4 : checkedSub ((u - 12) * 32 / 255) 23 = some ((u - 12) * 32 / 255 - 23) := by
    rw [checkedSub, if_pos hm]
  have h5 : checkedSub pl.size ((u - 12) * 32 / 255 - 23) =
      some (pl.size - ((u - 12) * 32 / 255 - 23)) := by
    rw [checkedSub, if_pos hp]
  have h6 : checkedSub u 4 = some (u - 4) := by rw [checkedSub, if_pos (by omega)]
  have h7 : checkedMod (pl.size - ((u - 12) * 32 / 255 - 23)) (u - 4) =
      some ((pl.size - ((u - 12) * 32 / 255 - 23)) % (u - 4)) := by
    rw [checkedMod, if_neg (by omega)]
  have h8 : checkedAdd ((u - 12) * 32 / 255 - 23)
      ((pl.size - ((u - 12) * 32 / 255 - 23)) % (u - 4)) =
      some (((u - 12) * 32 / 255 - 23) +
            (pl.size - ((u - 12) * 32 / 255 - 23)) % (u - 4)) := by
    rw [checkedAdd, if_pos hk]
  have h9 : checkedMul (u - 12) 64 = some ((u - 12) * 64) := by rw [checkedMul, if_pos h64]
  have hx64 : 23 ≤ (u - 12) * 64 / 255 := by
    calc 23 ≤ (u - 12) * 32 / 255 := hm
    _ ≤ (u - 12) * 64 / 255 := by
        apply Nat.div_le_div_right
        apply Nat.mul_le_mul_left
        omega
  have h10 : checkedSub ((u - 12) * 64 / 255) 23 = some ((u - 12) * 64 / 255 - 23) := by
    rw [checkedSub, if_pos hx64]
  have h11 : checkedSub u 35 = some (u - 35) := by rw [checkedSub, if_pos (by omega)]
  simp only [Payload.calculate_spillage, h1, h2, h3, h4, h5, h6, h7, h8, h9, h10, h11]
  cases hpt : pg.page_type <;>
    simp only [] <;>
    set m := (u - 12) * 32 / 255 - 23 with hmdef <;>
    set k := m + (pl.size - m) % (u - 4) with hkdef <;>
    split_ifs <;>
    first
      | (exfalso; omega)
      | (rw [checkedSub, if_pos (by omega)])
      | rfl


/-- When the preconditions `23 <= (u - 12) * 32 / 255` and `m <= p` fail, `calculate_spillage` hits an arithmetic underflow (modelled as `none`). -/
theorem calculate_spillage_underflow (pl : Payload) (db : Database) (pg : BtreePage) (u : Nat)
    (hu : db.reserved_space ≤ db.page_size)
    (hueq : u = db.page_size - db.reserved_space)
    (h : ¬ (23 ≤ (u - 12) * 32 / 255 ∧ (u - 12) * 32 / 255 - 23 ≤ pl.size)) :
    Payload.calculate_spillage pl db pg = none := by
  have h1 : checkedSub db.page_size db.reserved_space = some u := by
    rw [checkedSub, if_pos hu, hueq]
  push_neg at h
  by_cases h12 : 12 ≤ u
  · have h2 : checkedSub u 12 = some (u - 12) := by rw [checkedSub, if_pos h12]
    by_cases hmul : (u - 12) * 32 < 2 ^ 64
    · have h3 : checkedMul (u - 12) 32 = some ((u - 12) * 32) := by
        rw [checkedMul, if_pos hmul]
      by_cases hm : 23 ≤ (u - 12) * 32 / 255
      · have hpm := h hm
        have h4 : checkedSub ((u - 12) * 32 / 255) 23 = some ((u - 12) * 32 / 255 - 23) := by
          rw [checkedSub, if_pos hm]
        have h5 : checkedSub pl.size ((u - 12) * 32 / 255 - 23) = none := by
          rw [checkedSub, if_neg (by omega)]
        simp only [Payload.calculate_spillage, h1, h2, h3, h4, h5]
      · have h4 : checkedSub ((u - 12) * 32 / 255) 23 = none := by
          rw [checkedSub, if_neg hm]
        simp only [Payload.calculate_spillage, h1, h2, h3, h4]
    · have h3 : checkedMul (u - 12) 32 = none := by rw [checkedMul, if_neg hmul]
      simp only [Payload.calculate_spillage, h1, h2, h3]
  · have h2 : checkedSub u 12 = none := by rw [checkedSub, if_neg h12]
    simp only [Payload.calculate_spillage, h1, h2]


/-- C1, counterexample: a leaf-table cell of declared size 8 whose payload-size
varint decodes to 10 is decoded successfully with `overflow` present, yet with
`u = 4096 - 0` the section 4.2 formula gives `local_bytes = 10 = p`, so the
spillage formula does not call for overflow: the claimed iff fails at this
input. The code flags overflow by comparing `p` to the declared cell size, not
to the spillage formula. -/
theorem C1_counterexample :
    CellContent.get_cell_data ⟨PageType.LeafTable, 0⟩
        ⟨4096, 0, [0x0A, 0x02, 0xAA, 0xBB, 0xCC, 0xDD, 0xEE, 0xFF]⟩ ⟨0, 8⟩ =
      RResult.ok (CellContent.LeafTable "B-Tree Leaf Table" 2
        ⟨10, [0xAA, 0xBB], some [0xCC, 0xDD, 0xEE, 0xFF]⟩) ∧
    ¬ spec_local_bytes 10 (4096 - 0) PageType.LeafTable < 10 := by
  exact ⟨by decide, by decide⟩

/-- C1, amended: for every successfully decoded payload-bearing cell
(leaf-table, leaf-index, interior-index), the returned `Payload` has
`overflow.is_some()` iff the total logical payload size exceeds the cell's
declared size (`cell.size < payload.size`). -/
theorem C1_amended :
    (∀ (cell : Cell) (buf : List Nat) (r : Nat) (pl : Payload),
        parse_leaf_table_cell cell buf = RResult.ok (r, pl) →
        (pl.overflow.isSome = true ↔ cell.size < pl.size)) ∧
    (∀ (cell : Cell) (buf : List Nat) (pl : Payload),
        parse_leaf_index_cell cell buf = RResult.ok pl →
        (pl.overflow.isSome = true ↔ cell.size < pl.size)) ∧
    (∀ (cell : Cell) (buf : List Nat) (lcp : Nat) (pl : Payload),
        parse_interior_index_cell cell buf = RResult.ok (lcp, pl) →
        (pl.overflow.isSome = true ↔ cell.size < pl.size)) := by
  refine ⟨?_, ?_, ?_⟩
  · intro cell buf r pl h
    obtain ⟨v, n, hdec, hsz, hov⟩ := parse_leaf_table_ovf cell buf r pl h
    rw [hsz, hov]
    by_cases hc : cell.size < v
    · simp [hc]
    · simp [hc]
  · intro cell buf pl h
    obtain ⟨v, n, hdec, hsz, hd⟩ := parse_leaf_index_inv cell buf pl h
    rw [hsz]
    rcases hd with ⟨hc, hlen, hov, hpl⟩ | ⟨hc, hov, hpl⟩
    · rw [hov]; simp [hc]
    · rw [hov]; simp; omega
  · intro cell buf lcp pl h
    obtain ⟨v, n, hdec, hsz, hov⟩ := parse_interior_index_ovf cell buf lcp pl h
    rw [hsz, hov]
    by_cases hc : cell.size < v
    · simp [hc]
    · simp [hc]

/-- Witness for C1 (amended), at a concrete overflowing interior-index cell. -/
theorem C1_amended_witness :
    (Payload.overflow ⟨12, [], some [0x41, 0x42, 0x43, 0x44]⟩).isSome = true ↔ (9 : Nat) < 12 :=
  C1_amended.2.2 ⟨0, 9⟩ [0, 0, 0, 3, 0x0C, 0x41, 0x42, 0x43, 0x44] 3
    ⟨12, [], some [0x41, 0x42, 0x43, 0x44]⟩ (by decide)

/-- C2: for every leaf-table, leaf-index, or interior-index cell, with `p` the
payload's total logical size and `u = page_size - reserved_space`, whenever the
unsigned arithmetic involved is defined, `Payload::calculate_spillage` returns
exactly `p` minus the `local_bytes` of the section 4.2 formula: 0 when
`p <= x`, `p - k` when `p > x` and `k <= x`, and `p - m` when `p > x` and
`k > x`, where `m = (u - 12) * 32 / 255 - 23`, `k = m + (p - m) % (u - 4)`,
and `x = u - 35` for leaf-table cells or `(u - 12) * 64 / 255 - 23` for
index cells. -/
theorem C2_spillage_formula :
    ∀ (pl : Payload) (db : Database) (pg : BtreePage) (u m k x : Nat),
      (pg.page_type = PageType.LeafTable ∨ pg.page_type = PageType.LeafIndex ∨
        pg.page_type = PageType.InteriorIndex) →
      db.reserved_space ≤ db.page_size →
      u = db.page_size - db.reserved_space →
      23 ≤ (u - 12) * 32 / 255 →
      m = (u - 12) * 32 / 255 - 23 →
      m ≤ pl.size →
      (u - 12) * 32 < 2 ^ 64 →
      (u - 12) * 64 < 2 ^ 64 →
      m + (pl.size - m) % (u - 4) < 2 ^ 64 →
      k = m + (pl.size - m) % (u - 4) →
      x = (if pg.page_type = PageType.LeafTable then u - 35
           else (u - 12) * 64 / 255 - 23) →
      Payload.calculate_spillage pl db pg =
        some (if pl.size ≤ x then 0 else if k ≤ x then pl.size - k else pl.size - m) := by
  intro pl db pg u m k x hpt hu hueq hm hmdef hp h32 h64 hk hkdef hxdef
  subst hmdef hkdef hxdef
  have heq := calculate_spillage_eq pl db pg u hu hueq hm hp h32 h64 hk
  rcases hpt with h | h | h <;> rw [h] at heq ⊢ <;> simpa using heq

/-- Witness for C2, at `u = 4096`, a leaf-index cell with `p = 1500`. -/
theorem C2_spillage_formula_witness :
    Payload.calculate_spillage ⟨1500, [], none⟩ ⟨4096, 0, []⟩ ⟨PageType.LeafIndex, 0⟩ =
      some (if 1500 ≤ 1002 then 0 else if (1500 : Nat) ≤ 1002 then 1500 - 1500 else 1500 - 489) :=
  C2_spillage_formula ⟨1500, [], none⟩ ⟨4096, 0, []⟩ ⟨PageType.LeafIndex, 0⟩ 4096 489 1500 1002
    (by decide) (by decide) (by decide) (by decide) (by decide) (by decide) (by decide)
    (by decide) (by decide) (by decide) (by decide)

/-- C3, code bug evaluation: an interior-table cell of declared size 2 makes
`get_cell_data` panic (the slice `cell_buf[..4]` is out of range before the
fallible `try_into` can report an error) instead of returning a decode
error as the claim requires. -/
theorem C3_truncated_cell_panics :
    CellContent.get_cell_data ⟨PageType.InteriorTable, 0⟩ ⟨4096, 0, [0x00, 0x01]⟩ ⟨0, 2⟩ =
      RResult.panicked := by decide

/-- C4: for every leaf-index cell whose decode marks overflow as present, the
returned overflow pointer is exactly the last 4 bytes of the raw cell buffer
and `payload.payload` is the bytes from the end of the payload-size varint up
to but excluding those last 4 bytes; when overflow is absent, `payload.payload`
is all remaining bytes after the varint. -/
theorem C4_leaf_index_overflow_extraction :
    ∀ (cell : Cell) (buf : List Nat) (pl : Payload),
      parse_leaf_index_cell cell buf = RResult.ok pl →
      (∀ ov, pl.overflow = some ov →
          ov = buf.drop (buf.length - 4) ∧
          ∃ v n, decode_be buf = RResult.ok (v, n) ∧
            pl.payload = (buf.drop n).take (buf.length - 4 - n)) ∧
      (pl.overflow = none →
          ∃ v n, decode_be buf = RResult.ok (v, n) ∧ pl.payload = buf.drop n) := by
  intro cell buf pl h
  obtain ⟨v, n, hdec, hsz, hd⟩ := parse_leaf_index_inv cell buf pl h
  rcases hd with ⟨hc, hlen, hov, hpl⟩ | ⟨hc, hov, hpl⟩
  · constructor
    · intro ov hsome
      rw [hov] at hsome
      injection hsome with he
      exact ⟨he.symm, v, n, hdec, hpl⟩
    · intro hnone
      rw [hov] at hnone
      exact Option.noConfusion hnone
  · constructor
    · intro ov hsome
      rw [hov] at hsome
      exact Option.noConfusion hsome
    · intro _
      exact ⟨v, n, hdec, hpl⟩

/-- Witness for C4, at a concrete overflowing leaf-index cell. -/
theorem C4_leaf_index_overflow_extraction_witness :
    ([0xBB, 0xCC, 0xDD, 0xEE] : List Nat) =
      List.drop (List.length [0x0A, 0xAA, 0xBB, 0xCC, 0xDD, 0xEE] - 4)
        [0x0A, 0xAA, 0xBB, 0xCC, 0xDD, 0xEE] :=
  ((C4_leaf_index_overflow_extraction ⟨0, 6⟩ [0x0A, 0xAA, 0xBB, 0xCC, 0xDD, 0xEE]
      ⟨10, [0xAA], some [0xBB, 0xCC, 0xDD, 0xEE]⟩ (by decide)).1
    [0xBB, 0xCC, 0xDD, 0xEE] rfl).1

/-- C5: decoding the synthetic leaf-table cell bytes
`[0x03, 0x02, 0x41, 0x42, 0x43]` with declared cell size 5 yields
`row_id = 2`, `payload.size = 3`, `payload.payload = [0x41, 0x42, 0x43]`,
and no overflow. -/
theorem C5_end_to_end :
    CellContent.get_cell_data ⟨PageType.LeafTable, 0⟩
        ⟨4096, 0, [0x03, 0x02, 0x41, 0x42, 0x43]⟩ ⟨0, 5⟩ =
      RResult.ok (CellContent.LeafTable "B-Tree Leaf Table" 2
        ⟨3, [0x41, 0x42, 0x43], none⟩) := by
  decide

/-- C6: on every `CellContent` value, `get_payload` succeeds exactly on the
LeafTable, LeafIndex and InteriorIndex variants and fails on InteriorTable;
`get_left_child_pointer` succeeds exactly on InteriorTable and InteriorIndex;
`get_row_id` succeeds exactly on LeafTable; and every failure carries the
`InvalidFieldError` built from the live variant's label and the requested
field name. -/
theorem C6_accessor_exclusivity :
    ∀ (s : String) (rid lcp ik : Nat) (pl : Payload),
      CellContent.get_payload (CellContent.LeafTable s rid pl) = Except.ok pl.payload ∧
      CellContent.get_payload (CellContent.LeafIndex s pl) = Except.ok pl.payload ∧
      CellContent.get_payload (CellContent.InteriorIndex s lcp pl) = Except.ok pl.payload ∧
      CellContent.get_payload (CellContent.InteriorTable s lcp ik) =
        Except.error (InvalidFieldError.new s "payload") ∧
      CellContent.get_left_child_pointer (CellContent.InteriorTable s lcp ik) = Except.ok lcp ∧
      CellContent.get_left_child_pointer (CellContent.InteriorIndex s lcp pl) = Except.ok lcp ∧
      CellContent.get_left_child_pointer (CellContent.LeafTable s rid pl) =
        Except.error (InvalidFieldError.new s "left_child_ptr") ∧
      CellContent.get_left_child_pointer (CellContent.LeafIndex s pl) =
        Except.error (InvalidFieldError.new s "left_child_ptr") ∧
      CellContent.get_row_id (CellContent.LeafTable s rid pl) = Except.ok rid ∧
      CellContent.get_row_id (CellContent.InteriorTable s lcp ik) =
        Except.error (InvalidFieldError.new s "row_id") ∧
      CellContent.get_row_id (CellContent.InteriorIndex s lcp pl) =
        Except.error (InvalidFieldError.new s "row_id") ∧
      CellContent.get_row_id (CellContent.LeafIndex s pl) =
        Except.error (InvalidFieldError.new s "row_id") := by
  intro s rid lcp ik pl
  exact ⟨rfl, rfl, rfl, rfl, rfl, rfl, rfl, rfl, rfl, rfl, rfl, rfl⟩

/-- C7: whenever `get_cell_data` returns `Ok`, the variant of the returned
`CellContent` is exactly the page's declared type, for every database file
content and cell locator: the choice of variant never depends on the cell's
byte content. -/
theorem C7_variant_from_page_type :
    ∀ (pg : BtreePage) (db : Database) (cell : Cell) (c : CellContent),
      CellContent.get_cell_data pg db cell = RResult.ok c →
      c.variantOf = pg.page_type := by
  intro pg db cell c h
  obtain ⟨pt, pos⟩ := pg
  unfold CellContent.get_cell_data at h
  split at h
  · exact absurd h (by simp)
  · exact absurd h (by simp)
  next buf hbuf =>
    cases pt <;>
      simp only [] at h <;>
      (split at h <;>
        first
          | exact RResult.noConfusion h
          | (injection h with h2; subst h2; rfl))

/-- Witness for C7, at a concrete interior-table cell. -/
theorem C7_variant_from_page_type_witness :
    (CellContent.InteriorTable "B-Tree Interior Table" 7 5).variantOf =
      PageType.InteriorTable :=
  C7_variant_from_page_type ⟨PageType.InteriorTable, 0⟩ ⟨4096, 0, [0, 0, 0, 7, 0x05]⟩ ⟨0, 5⟩
    (CellContent.InteriorTable "B-Tree Interior Table" 7 5) (by decide)

/-- C8: `calculate_spillage` is total (no underflow panic) only under the
preconditions that `(u - 12) * 32 / 255` is at least 23 (so `m` is
nonnegative) and that `p >= m`: outside them the computation underflows
(modelled by `none`) rather than returning an error value, and under them
(with the remaining `u64` arithmetic in range) it produces a value. -/
theorem C8_spillage_totality :
    ∀ (pl : Payload) (db : Database) (pg : BtreePage) (u : Nat),
      db.reserved_space ≤ db.page_size →
      u = db.page_size - db.reserved_space →
      ((¬ (23 ≤ (u - 12) * 32 / 255 ∧ (u - 12) * 32 / 255 - 23 ≤ pl.size)) →
          Payload.calculate_spillage pl db pg = none) ∧
      (23 ≤ (u - 12) * 32 / 255 → (u - 12) * 32 / 255 - 23 ≤ pl.size →
          (u - 12) * 32 < 2 ^ 64 → (u - 12) * 64 < 2 ^ 64 →
          (u - 12) * 32 / 255 - 23 +
            (pl.size - ((u - 12) * 32 / 255 - 23)) % (u - 4) < 2 ^ 64 →
          (Payload.calculate_spillage pl db pg).isSome = true) := by
  intro pl db pg u hu hueq
  constructor
  · exact calculate_spillage_underflow pl db pg u hu hueq
  · intro hm hp h32 h64 hk
    rw [calculate_spillage_eq pl db pg u hu hueq hm hp h32 h64 hk]
    rfl

/-- Witness for C8, at `u = 100`, where the first precondition fails. -/
theorem C8_spillage_totality_witness :
    Payload.calculate_spillage ⟨5, [], none⟩ ⟨100, 0, []⟩ ⟨PageType.LeafTable, 0⟩ = none :=
  (C8_spillage_totality ⟨5, [], none⟩ ⟨100, 0, []⟩ ⟨PageType.LeafTable, 0⟩ 100
      (by decide) (by decide)).1 (by decide)

/-- C9: when the decoded payload-size `p` does not exceed the declared cell
size, the leaf-table and leaf-index decoders return all remaining buffer bytes
after the header fields as the payload without checking that count against
`p`; at a concrete cell the two disagree and no error is raised. -/
theorem C9_no_payload_length_check :
    (∀ (cell : Cell) (buf : List Nat) (p n r n2 : Nat),
        decode_be buf = RResult.ok (p, n) →
        decode_be (buf.drop n) = RResult.ok (r, n2) →
        p ≤ cell.size →
        parse_leaf_table_cell cell buf = RResult.ok (r, ⟨p, buf.drop (n + n2), none⟩)) ∧
    (∀ (cell : Cell) (buf : List Nat) (p n : Nat),
        decode_be buf = RResult.ok (p, n) → p ≤ cell.size →
        parse_leaf_index_cell cell buf = RResult.ok ⟨p, buf.drop n, none⟩) ∧
    (parse_leaf_table_cell ⟨0, 5⟩ [0x02, 0x01, 0x41, 0x42, 0x43] =
        RResult.ok (1, ⟨2, [0x41, 0x42, 0x43], none⟩) ∧
      ([0x41, 0x42, 0x43] : List Nat).length ≠ 2) := by
  refine ⟨?_, ?_, by decide⟩
  · intro cell buf p n r n2 h1 h2 hle
    exact parse_leaf_table_fwd cell buf p n r n2 h1 h2 hle
  · intro cell buf p n h1 hle
    exact parse_leaf_index_fwd cell buf p n h1 hle

/-- Witness for C9, at a cell whose declared payload size 3 exceeds the single byte actually present. -/
theorem C9_no_payload_length_check_witness :
    parse_leaf_table_cell ⟨0, 6⟩ [0x03, 0x09, 0x41] = RResult.ok (9, ⟨3, [0x41], none⟩) :=
  C9_no_payload_length_check.1 ⟨0, 6⟩ [0x03, 0x09, 0x41] 3 1 9 1 (by decide) (by decide)
    (by decide)

/-- C10: `parse_interior_table_cell` never verifies that the buffer is fully
consumed: on any buffer made of a 4-byte left-child pointer, a decodable
varint, and arbitrary trailing bytes, parsing succeeds and the trailing bytes
affect neither the left-child pointer nor the integer key. -/
theorem C10_interior_table_ignores_trailing_bytes :
    ∀ (hdr w ext : List Nat) (v n : Nat),
      hdr.length = 4 → decode_be w = RResult.ok (v, n) →
      parse_interior_table_cell (hdr ++ (w ++ ext)) =
        RResult.ok (u32_from_be_bytes hdr, v) := by
  intro hdr w ext v n hlen hdec
  exact parse_interior_table_fwd hdr w ext v n hlen hdec

/-- Witness for C10, with two trailing bytes after the integer-key varint. -/
theorem C10_interior_table_ignores_trailing_bytes_witness :
    parse_interior_table_cell [0, 0, 0, 9, 0x07, 0xFF, 0xEE] = RResult.ok (9, 7) :=
  C10_interior_table_ignores_trailing_bytes [0, 0, 0, 9] [0x07] [0xFF, 0xEE] 7 1
    (by decide) (by decide)

end RuSQLite
